import Mathlib

/-!
Verification of the OpenAPI-to-tools MCP bridge (fast_mcp_server.py) and its
auto-generated integration-test harness (test_empi_endpoints.py).

The Python sources are shallowly embedded below: Python dicts become
association lists over `String` keys (insertion order preserved, later
assignment overwrites in place, exactly as CPython dicts behave), JSON values
become the inductive `Val`, OpenAPI schema fragments become `Schema`,
fallible code returns `Except`/`Option`, and the async test runner is
modelled as a labelled transition system whose guard mirrors
`asyncio.Semaphore(concurrency)`.
-/

/-! ## String helpers mirroring the Python string operations used -/

/-- Python `str.lower()` restricted to the per-character lowering that CPython
performs on the ASCII strings this code handles. -/
def pyLower (s : String) : String := String.mk (s.data.map Char.toLower)

/-- Python `str.upper()` per-character upper-casing (`method.upper()`). -/
def pyUpper (s : String) : String := String.mk (s.data.map Char.toUpper)

/-- Python `str.endswith(suffix)` on character lists. -/
def endsWithL (s suf : List Char) : Bool := suf.reverse.isPrefixOf s.reverse

/-- Python `str.endswith` on strings. -/
def pyEndsWith (s suf : String) : Bool := endsWithL s.data suf.data

/-- One pass of Python `str.replace`: scan left to right, replacing each
non-overlapping occurrence of `pat`.  The `fuel` argument is an upper bound on
the number of characters still to scan (initialised to the full length), which
makes the recursion structural; every step consumes at least one character so
the fuel never runs out before the list does. -/
def replaceFuel (pat rep : List Char) : Nat → List Char → List Char
  | 0, l => l
  | _ + 1, [] => []
  | f + 1, c :: cs =>
    if pat ≠ [] ∧ pat.isPrefixOf (c :: cs) then
      rep ++ replaceFuel pat rep f (List.drop (pat.length - 1) cs)
    else
      c :: replaceFuel pat rep f cs

/-- Python `s.replace(pat, rep)`.  All the patterns this program passes
(`"{name}"`, `"-"`, `"/"`) are non-empty, so the empty-pattern behaviour of
CPython (which interleaves `rep` between characters) is never exercised and is
modelled as the identity. -/
def strReplace (s pat rep : String) : String :=
  if pat.data = [] then s else String.mk (replaceFuel pat.data rep.data s.data.length s.data)

/-- UTF-8 encoding of one character, as a list of byte values; this is the
encoding `urllib.parse.quote` applies before percent-encoding. -/
def utf8Bytes (c : Char) : List Nat :=
  let n := c.toNat
  if n < 0x80 then [n]
  else if n < 0x800 then [0xC0 + n / 0x40, 0x80 + n % 0x40]
  else if n < 0x10000 then [0xE0 + n / 0x1000, 0x80 + (n / 0x40) % 0x40, 0x80 + n % 0x40]
  else [0xF0 + n / 0x40000, 0x80 + (n / 0x1000) % 0x40, 0x80 + (n / 0x40) % 0x40, 0x80 + n % 0x40]

/-- Uppercase hexadecimal digit, as used by `urllib.parse.quote` (`%%%02X`). -/
def hexDigit (n : Nat) : Char :=
  if n < 10 then Char.ofNat (48 + n) else Char.ofNat (55 + n)

/-- The bytes `urllib.parse.quote` leaves unencoded with `safe=""`:
ASCII letters, digits, and `_ . - ~`. -/
def isUnreservedByte (b : Nat) : Bool :=
  (65 ≤ b && b ≤ 90) || (97 ≤ b && b ≤ 122) || (48 ≤ b && b ≤ 57) ||
    (b == 45) || (b == 46) || (b == 95) || (b == 126)

/-- `urllib.parse.quote(s, safe="")`: UTF-8 encode, keep unreserved bytes,
percent-encode everything else with uppercase hex. -/
def percentEncode (s : String) : String :=
  String.mk <| (s.data.flatMap utf8Bytes).flatMap fun b =>
    if isUnreservedByte b then [Char.ofNat b]
    else ['%', hexDigit (b / 16), hexDigit (b % 16)]

/-- `urllib.parse.quote_plus`: like `quote` with the empty safe set, except a
space becomes `+` (this is what `urlencode` applies to keys and values). -/
def quotePlus (s : String) : String :=
  String.mk <| (s.data.flatMap utf8Bytes).flatMap fun b =>
    if b == 32 then ['+']
    else if isUnreservedByte b then [Char.ofNat b]
    else ['%', hexDigit (b / 16), hexDigit (b % 16)]

/-- Join string pieces with a separator (`"&".join` and friends). -/
def joinWith (sep : String) : List String → String
  | [] => ""
  | [x] => x
  | x :: xs => x ++ sep ++ joinWith sep xs

/-! ## Python values

`Val` embeds the JSON-compatible Python values that flow through the argument
dictionaries.  `num0` is the float `0.0`, the only float the program ever
synthesizes.  Lists and objects are given their own mutual types so that every
function on `Val` is structurally recursive (and hence evaluates by `rfl`). -/

mutual
inductive Val where
  | str : String → Val
  | int : Int → Val
  | num0 : Val
  | bool : Bool → Val
  | list : VList → Val
  | obj : VObj → Val
inductive VList where
  | nil : VList
  | cons : Val → VList → VList
inductive VObj where
  | nil : VObj
  | cons : String → Val → VObj → VObj
end

/-- A string wrapped in ASCII apostrophes (character 39), as CPython `repr`
prints strings inside containers. -/
def quoteStr (s : String) : String :=
  String.mk [Char.ofNat 39] ++ s ++ String.mk [Char.ofNat 39]

mutual
/-- Python `str(v)` for the values above (scalars as CPython prints them;
containers via their `repr`).  CPython additionally escapes special
characters inside container reprs; no value this program builds hits that
case. -/
def pyStr : Val → String
  | .str s => s
  | .int n => toString n
  | .num0 => "0.0"
  | .bool b => if b then "True" else "False"
  | .list xs => "[" ++ pyStrList xs ++ "]"
  | .obj xs => "\x7b" ++ pyStrObj xs ++ "\x7d"
/-- Python `repr(v)` as used inside container `str`. -/
def pyRepr : Val → String
  | .str s => quoteStr s
  | .int n => toString n
  | .num0 => "0.0"
  | .bool b => if b then "True" else "False"
  | .list xs => "[" ++ pyStrList xs ++ "]"
  | .obj xs => "\x7b" ++ pyStrObj xs ++ "\x7d"
def pyStrList : VList → String
  | .nil => ""
  | .cons v .nil => pyRepr v
  | .cons v rest => pyRepr v ++ ", " ++ pyStrList rest
def pyStrObj : VObj → String
  | .nil => ""
  | .cons k v .nil => quoteStr k ++ ": " ++ pyRepr v
  | .cons k v rest => quoteStr k ++ ": " ++ pyRepr v ++ ", " ++ pyStrObj rest
end

/-! ## Dictionaries

Python dicts are embedded as association lists with unique keys, in insertion
order.  `dictInsert` is `d[k] = v`: overwrite in place if the key exists,
append otherwise. -/

/-- Python `k in d`. -/
def hasKey {α : Type} : List (String × α) → String → Bool
  | [], _ => false
  | kv :: d, k => decide (kv.1 = k) || hasKey d k

/-- Lookup returning the stored value, if any. -/
def lookupS {α : Type} : List (String × α) → String → Option α
  | [], _ => none
  | kv :: d, k => if kv.1 = k then some kv.2 else lookupS d k

/-- Python `d[k]` for a key known to be present (the fallback is never
reached on the call sites, which all guard with `k in d`). -/
def dictGet (d : List (String × Val)) (k : String) : Val :=
  (lookupS d k).getD (.str "")

/-- Python `d[k] = v`. -/
def dictInsert {α : Type} (d : List (String × α)) (k : String) (v : α) :
    List (String × α) :=
  if hasKey d k then d.map (fun kv => if kv.1 = k then (k, v) else kv)
  else d ++ [(k, v)]

/-- The comprehension `arg_keys = {k.lower(): k for k in args}` followed by
`arg_keys[lname]`: the key with the given lowercase form, later entries
overwriting earlier ones. -/
def lastKeyLower (args : List (String × Val)) (lname : String) : Option String :=
  args.foldl (fun acc kv => if pyLower kv.1 = lname then some kv.1 else acc) none

/-! ## OpenAPI schema fragments

`Schema` embeds the JSON-schema dictionaries the program reads: the `type`,
`format`, `enum`, `required`, `items` and `properties` keys it accesses.
`OptSchema` and `PropList` are given as mutual inductives so that
`synth_value` below is structurally recursive. -/

mutual
inductive Schema where
  | mk : Option String → Option String → List Val → List String → OptSchema → PropList → Schema
inductive OptSchema where
  | none : OptSchema
  | some : Schema → OptSchema
inductive PropList where
  | nil : PropList
  | cons : String → Schema → PropList → PropList
end

/-- The `type` key of a schema (`schema.get("type")`). -/
def Schema.type : Schema → Option String
  | .mk t _ _ _ _ _ => t

/-- The `format` key of a schema. -/
def Schema.format : Schema → Option String
  | .mk _ f _ _ _ _ => f

/-- The `enum` key of a schema; `[]` models both an absent key and an empty
list, which Python treats identically (both falsy). -/
def Schema.enum : Schema → List Val
  | .mk _ _ e _ _ _ => e

/-- The `required` key of a schema (`schema.get("required", [])`). -/
def Schema.required : Schema → List String
  | .mk _ _ _ r _ _ => r

/-- The `items` key of a schema. -/
def Schema.items : Schema → OptSchema
  | .mk _ _ _ _ i _ => i

/-- The `properties` key of a schema. -/
def Schema.properties : Schema → PropList
  | .mk _ _ _ _ _ p => p

/-- `schema.get("type")` through an optional schema (`{}` when absent). -/
def OptSchema.typeOf : OptSchema → Option String
  | .none => Option.none
  | .some s => s.type

/-- `schema.get("properties") or {}` through an optional schema. -/
def OptSchema.propsOf : OptSchema → PropList
  | .none => .nil
  | .some s => s.properties

/-- `schema.get("required", [])` through an optional schema. -/
def OptSchema.requiredOf : OptSchema → List String
  | .none => []
  | .some s => s.required

/-- Membership of a key in a `properties` dictionary (`k in schema.get("properties", {})`). -/
def PropList.hasProp : PropList → String → Bool
  | .nil, _ => false
  | .cons k _ rest, n => decide (k = n) || rest.hasProp n

/-- The name test in `synth_value` for integers:
`name.lower().endswith("id") or name.lower() in {"id", "book_id"}`. -/
def nameLikeId (name : String) : Bool :=
  pyEndsWith (pyLower name) "id" || decide (pyLower name = "id") ||
    decide (pyLower name = "book_id")

mutual
/-- `synth_value(prop_schema, name)` from test_empi_endpoints.py: synthesize a
representative example value for a schema.  The enum check runs first
(`if enum:`); an absent `items` key passes `{}` to the recursive call, which
lands in the string fallback, inlined here as `sample_<name>_item`. -/
def synthValue : Schema → String → Val
  | .mk t fmt en _ items props, name =>
    match en with
    | v :: _ => v
    | [] =>
      if t = some "integer" then
        if nameLikeId name then .int 1 else .int 0
      else if t = some "number" then .num0
      else if t = some "boolean" then .bool true
      else if t = some "array" then
        .list (.cons (synthItems items (name ++ "_item")) .nil)
      else if t = some "object" then
        .obj (synthProps props)
      else if fmt = some "date-time" then .str "2000-01-01T00:00:00Z"
      else if fmt = some "date" then .str "2000-01-01"
      else if name ≠ "" then .str ("sample_" ++ name)
      else .str "sample"
/-- Recursive synthesis through the `items` key; a missing key is the empty
schema `{}`, whose synthesis is the string fallback. -/
def synthItems : OptSchema → String → Val
  | .none, name => if name ≠ "" then .str ("sample_" ++ name) else .str "sample"
  | .some s, name => synthValue s name
/-- `{k: synth_value(v, name=k) for k, v in props.items()}`. -/
def synthProps : PropList → VObj
  | .nil => .nil
  | .cons k s rest => .cons k (synthValue s k) (synthProps rest)
end

/-! ## Operations

`Param` embeds one entry of an operation's `parameters` list; `Details` is the
per-method operation dictionary.  `requestBody` is `Option`-valued with
`Option.none` standing for an absent or falsy (`{}`) value, matching the
`if details.get("requestBody"):` guards; `appJson` is `Option.some` exactly
when the `content` dictionary has an `application/json` key. -/

structure Param where
  name : String
  loc : Option String
  required : Bool
  schema : OptSchema

/-- `(param.get("schema") or {}).get("type")`. -/
def Param.schemaType (p : Param) : Option String := p.schema.typeOf

structure JsonMedia where
  schema : OptSchema

structure ReqBody where
  appJson : Option JsonMedia

structure Details where
  operationId : Option String
  summary : Option String
  description : Option String
  parameters : List Param
  requestBody : Option ReqBody

/-! ## Operation catalog (ensure_openapi_loaded in fast_mcp_server.py) -/

/-- The recognized HTTP verb keys of a path item. -/
def httpVerbs : List String := ["get", "post", "put", "delete", "patch", "head", "options"]

/-- `details.get("operationId", f"{method}_{path}").replace("/", "_")`. -/
def deriveOpId (method path : String) (declared : Option String) : String :=
  strReplace (declared.getD (method ++ "_" ++ path)) "/" "_"

/-- One catalog entry: `operation_map[op_id] = (method.upper(), path, details)`. -/
def catalogEntry (method path : String) (d : Details) :
    String × String × String × Details :=
  (deriveOpId method path d.operationId, pyUpper method, path, d)

/-- The body of the nested loop in `ensure_openapi_loaded`: walk
`paths.items()`, then `methods.items()`, skip non-verb keys, and store each
entry into the `operation_map` dict. -/
def buildOperationMap (paths : List (String × List (String × Details))) :
    List (String × String × String × Details) :=
  paths.foldl
    (fun m pr =>
      pr.2.foldl
        (fun m md =>
          if pyLower md.1 ∈ httpVerbs then
            let e := catalogEntry md.1 pr.1 md.2
            dictInsert m e.1 e.2
          else m)
        m)
    []

/-- The verb-keyed (method, path) entries of the document, flattened in
traversal order, each with its derived operation id. -/
def verbEntries (paths : List (String × List (String × Details))) :
    List (String × String × String × Details) :=
  paths.flatMap fun pr =>
    (pr.2.filter fun md => pyLower md.1 ∈ httpVerbs).map fun md =>
      catalogEntry md.1 pr.1 md.2

/-- The number of (method, path) pairs appearing under a recognized HTTP verb
key. -/
def countVerbPairs (paths : List (String × List (String × Details))) : Nat :=
  (paths.flatMap fun pr => pr.2.filter fun md => pyLower md.1 ∈ httpVerbs).length

/-! ## Request synthesizer (build_request_from_operation, fast_mcp_server.py)

The test harness file carries a verbatim copy of the same function, differing
only in returning `method.upper()` and in not falling back to the
HeaderContext override or environment default for header parameters; the path
substitution, query and body logic below is shared by both. -/

/-- The path-parameter substitution loop: for each `in: path` parameter,
raise `ValueError(f"Missing required path parameter: {pname}")` when the
argument is absent, else replace `{pname}` in the template with the
percent-encoded `str` of the argument. -/
def substPathParams : List Param → List (String × Val) → String → Except String String
  | [], _, path => .ok path
  | p :: ps, args, path =>
    if p.loc = some "path" then
      if hasKey args p.name then
        substPathParams ps args
          (strReplace path ("\x7b" ++ p.name ++ "\x7d")
            (percentEncode (pyStr (dictGet args p.name))))
      else .error ("Missing required path parameter: " ++ p.name)
    else substPathParams ps args path

/-- Resolution of a single header parameter value, factoring the source's
branch ladder: `provided_key` is the exact argument name, else the
case-insensitive `arg_keys` match, else the hyphen-to-underscore normalized
match; with no provided key, the `x-group` / `x-hospital` names fall back to
the user override then the environment default (each tested for Python
truthiness), and any other header yields nothing. -/
def headerResolveValue (args : List (String × Val)) (uXG dXG uXH dXH : Option String)
    (pname : String) : Option String :=
  let lname := pyLower pname
  let providedKey : Option String :=
    if hasKey args pname then some pname
    else
      match lastKeyLower args lname with
      | some k => some k
      | Option.none => lastKeyLower args (strReplace lname "-" "_")
  match providedKey with
  | some k => some (pyStr (dictGet args k))
  | Option.none =>
    if lname = "x-group" then
      if uXG.getD "" ≠ "" then some (uXG.getD "")
      else if dXG.getD "" ≠ "" then some (dXG.getD "")
      else Option.none
    else if lname = "x-hospital" then
      if uXH.getD "" ≠ "" then some (uXH.getD "")
      else if dXH.getD "" ≠ "" then some (dXH.getD "")
      else Option.none
    else Option.none

/-- One iteration of the query/header loop over `details.get("parameters")`:
`if loc == "query" and pname in arguments` fills the query dict, `elif loc ==
"header"` resolves a header value as above. -/
def headerResolveStep (args : List (String × Val)) (uXG dXG uXH dXH : Option String)
    (acc : List (String × Val) × List (String × String)) (p : Param) :
    List (String × Val) × List (String × String) :=
  if p.loc = some "query" ∧ hasKey args p.name then
    (dictInsert acc.1 p.name (dictGet args p.name), acc.2)
  else if p.loc = some "header" then
    match headerResolveValue args uXG dXG uXH dXH p.name with
    | some v => (acc.1, dictInsert acc.2 p.name v)
    | Option.none => acc
  else acc

/-- The query-parameter and header dictionaries produced by the loop. -/
def queryAndHeaders (details : Details) (args : List (String × Val))
    (uXG dXG uXH dXH : Option String) :
    List (String × Val) × List (String × String) :=
  details.parameters.foldl (headerResolveStep args uXG dXG uXH dXH) ([], [])

/-- The JSON body: when the operation declares a truthy `requestBody` with an
`application/json` schema of type `object`, the subset of arguments whose keys
are declared body properties (in argument order); `None` otherwise. -/
def bodyFromArgs (details : Details) (args : List (String × Val)) :
    Option (List (String × Val)) :=
  match details.requestBody with
  | Option.none => Option.none
  | Option.some rb =>
    match rb.appJson with
    | Option.none => Option.none
    | Option.some jm =>
      if jm.schema.typeOf = some "object" then
        some (args.filter fun kv => (jm.schema.propsOf).hasProp kv.1)
      else Option.none

/-- `urlencode(query_params)`: `quote_plus` each key and the `str` of each
value, joined as `k=v` pairs with `&`. -/
def urlencodeQP (qp : List (String × Val)) : String :=
  joinWith "&" (qp.map fun kv => quotePlus kv.1 ++ "=" ++ quotePlus (pyStr kv.2))

/-- `build_request_from_operation(method, path, details, arguments)` of
fast_mcp_server.py, with the module globals `USER_X_GROUP`, `DEFAULT_X_GROUP`,
`USER_X_HOSPITAL`, `DEFAULT_X_HOSPITAL` passed explicitly.  Returns
`(method, path-with-query, body, headers)` or the `ValueError` message. -/
def buildRequestFromOperation (method path : String) (details : Details)
    (args : List (String × Val)) (uXG dXG uXH dXH : Option String) :
    Except String (String × String × Option (List (String × Val)) × List (String × String)) :=
  match substPathParams details.parameters args path with
  | .error e => .error e
  | .ok path2 =>
    let qh := queryAndHeaders details args uXG dXG uXH dXH
    let body := bodyFromArgs details args
    let path3 := if qh.1.isEmpty then path2 else path2 ++ "?" ++ urlencodeQP qh.1
    .ok (method, path3, body, qh.2)

/-- The error component of an `Except` result. -/
def exceptErr {ε α : Type} : Except ε α → Option ε
  | .error e => some e
  | .ok _ => Option.none

/-- The header-resolution precedence chain exactly as the specification words
it: an explicit argument matching the exact header name, then a
case-insensitive match, then a hyphen/underscore-normalized match, then — for
the two recognized cross-cutting headers only — the live user override, then
the environment default, otherwise nothing (the header is omitted). -/
def specHeaderResolution (args : List (String × Val)) (uXG dXG uXH dXH : Option String)
    (pname : String) : Option String :=
  if hasKey args pname then some (pyStr (dictGet args pname))
  else
    match lastKeyLower args (pyLower pname) with
    | some k => some (pyStr (dictGet args k))
    | Option.none =>
      match lastKeyLower args (strReplace (pyLower pname) "-" "_") with
      | some k => some (pyStr (dictGet args k))
      | Option.none =>
        if pyLower pname = "x-group" then
          if uXG.getD "" ≠ "" then some (uXG.getD "")
          else if dXG.getD "" ≠ "" then some (dXG.getD "")
          else Option.none
        else if pyLower pname = "x-hospital" then
          if uXH.getD "" ≠ "" then some (uXH.getD "")
          else if dXH.getD "" ≠ "" then some (dXH.getD "")
          else Option.none
        else Option.none

/-! ## Invocation gateway (make_api_request, fast_mcp_server.py)

The response handling of `make_api_request` is a pure function of the HTTP
method, the response status, and whether the body parses as JSON.
`aiohttp`'s `raise_for_status` raises `ClientResponseError` — a subclass of
`ClientError` — exactly when the status is at least 400; the surrounding
`except aiohttp.ClientError` converts that to the structured
`{"error": "API request failed: ..."}` dict, modelled as `transportError`.
`pyNone` models the Python function body falling through every `elif` branch
and implicitly returning `None`: this is what happens for any method other
than GET, POST, PUT, DELETE. -/

inductive ApiOutcome where
  | notFound : String → ApiOutcome
  | noContent : ApiOutcome
  | jsonResult : ApiOutcome
  | textResult : String → Nat → ApiOutcome
  | transportError : ApiOutcome
  | pyNone : ApiOutcome
deriving DecidableEq

/-- The per-method response classification of `make_api_request`.  Note that
only the GET, PUT and DELETE branches test for status 404 before calling
`raise_for_status`; the POST branch calls `raise_for_status` directly. -/
def makeApiOutcome (method : String) (status : Nat) (jsonParses : Bool)
    (body : String) : ApiOutcome :=
  let m := pyUpper method
  if m = "GET" then
    if status = 404 then .notFound body
    else if 400 ≤ status then .transportError
    else if status = 204 then .noContent
    else if jsonParses then .jsonResult
    else .textResult body status
  else if m = "POST" then
    if 400 ≤ status then .transportError
    else if status = 204 then .noContent
    else if jsonParses then .jsonResult
    else .textResult body status
  else if m = "PUT" then
    if status = 404 then .notFound body
    else if 400 ≤ status then .transportError
    else if status = 204 then .noContent
    else if jsonParses then .jsonResult
    else .textResult body status
  else if m = "DELETE" then
    if status = 404 then .notFound body
    else if 400 ≤ status then .transportError
    else if status = 204 then .noContent
    else if jsonParses then .jsonResult
    else .textResult body status
  else .pyNone

/-- The method dispatch of `_execute` in test_empi_endpoints.py: explicit
branches for the four standard verbs and a generic
`session.request(http_method, ...)` fallback for every other method. -/
inductive EngineDispatch where
  | get : EngineDispatch
  | post : EngineDispatch
  | put : EngineDispatch
  | delete : EngineDispatch
  | generic : String → EngineDispatch
deriving DecidableEq

def engineDispatch (m : String) : EngineDispatch :=
  if m = "GET" then .get
  else if m = "POST" then .post
  else if m = "PUT" then .put
  else if m = "DELETE" then .delete
  else .generic m

/-! ## call_tool for operation tools (fast_mcp_server.py, lines 495-531)

After `build_request_from_operation` returns, `call_tool` force-injects the
`x-group` and `x-hospital` headers when absent (user override first, then
environment default), and if either is still missing it returns the
"Missing required header(s)" instruction without touching the network.
`CallAction.request` is the only constructor that reaches
`make_api_request`. -/

inductive CallAction where
  | buildError : String → CallAction
  | missingHeaders : List String → CallAction
  | request : String → String → Option (List (String × Val)) →
      List (String × String) → CallAction

/-- The injection step shared by both headers: if neither the lowercase nor
the capitalized spelling is present, insert the user override when truthy,
else the environment default when truthy, else leave the dict unchanged. -/
def injectHeader (hd : List (String × String)) (lo hi : String)
    (user dflt : Option String) : List (String × String) :=
  if ¬ (hasKey hd lo || hasKey hd hi) then
    if user.getD "" ≠ "" then dictInsert hd lo (user.getD "")
    else if dflt.getD "" ≠ "" then dictInsert hd lo (dflt.getD "")
    else hd
  else hd

/-- The headers after both forced injections. -/
def injectedHeaders (hd : List (String × String)) (uXG dXG uXH dXH : Option String) :
    List (String × String) :=
  injectHeader (injectHeader hd "x-group" "X-Group" uXG dXG) "x-hospital" "X-Hospital" uXH dXH

/-- The prompt strings of the missing-header message. -/
def groupPrompt : String := "x-group (call set_x_group with \x7b x_group: <value> \x7d)"
def hospitalPrompt : String := "x-hospital (call set_x_hospital with \x7b x_hospital: <value> \x7d)"

/-- The operation-tool path of `call_tool`: build the request (converting a
raised `ValueError` into an error text), force-inject the two cross-cutting
headers, return the missing-header instruction if either is still absent,
else perform the HTTP request. -/
def callToolOperation (method path : String) (details : Details)
    (args : List (String × Val)) (uXG dXG uXH dXH : Option String) : CallAction :=
  match buildRequestFromOperation method path details args uXG dXG uXH dXH with
  | .error e => .buildError ("Error building request: " ++ e)
  | .ok (m, ep, body, headers) =>
    let headers2 := injectedHeaders headers uXG dXG uXH dXH
    let prompts :=
      (if ¬ (hasKey headers2 "x-group" || hasKey headers2 "X-Group") then [groupPrompt] else [])
      ++ (if ¬ (hasKey headers2 "x-hospital" || hasKey headers2 "X-Hospital") then [hospitalPrompt] else [])
    if prompts.isEmpty then .request m ep body headers2
    else .missingHeaders prompts

/-! ## Test scenario engine (test_empi_endpoints.py) -/

/-- The `{"type": ptype}` schema passed to `synth_value` for a path/query
parameter, with `ptype = (param.get("schema") or {}).get("type", "string")`. -/
def paramTypeSchema (p : Param) : Schema :=
  .mk (some (p.schemaType.getD "string")) Option.none [] [] .none .nil

/-- `synthesize_base_args(details)`: every path/query parameter and, when a
truthy `requestBody` declares an `application/json` object schema, every body
property receives a synthesized value. -/
def synthesizeBaseArgs (details : Details) : List (String × Val) :=
  let args := details.parameters.foldl
    (fun a p =>
      if p.loc = some "path" ∨ p.loc = some "query" then
        dictInsert a p.name (synthValue (paramTypeSchema p) p.name)
      else a)
    []
  match details.requestBody with
  | Option.none => args
  | Option.some rb =>
    match rb.appJson with
    | Option.none => args
    | Option.some jm =>
      if jm.schema.typeOf = some "object" then
        propArgsFold jm.schema.propsOf args
      else args
where
  /-- `for pname, prop in properties.items(): args[pname] = synth_value(prop, pname)`. -/
  propArgsFold : PropList → List (String × Val) → List (String × Val)
    | .nil, a => a
    | .cons k s rest, a => propArgsFold rest (dictInsert a k (synthValue s k))

/-- The `required_fields` harvest in `run_single_test`: names of required
path/query parameters in declaration order, then the body schema's `required`
list when the body schema has type `object`. -/
def requiredFields (details : Details) : List String :=
  ((details.parameters.filter fun p =>
      p.required ∧ (p.loc = some "path" ∨ p.loc = some "query")).map Param.name)
  ++ (match details.requestBody with
      | Option.none => []
      | Option.some rb =>
        match rb.appJson with
        | Option.none => []
        | Option.some jm =>
          if jm.schema.typeOf = some "object" then jm.schema.requiredOf else [])

/-- `has_numeric_path`: some parameter is declared `in: path` with schema type
`integer` or `number`. -/
def hasNumericPath (details : Details) : Bool :=
  details.parameters.any fun p =>
    (decide (p.schemaType = some "integer") || decide (p.schemaType = some "number"))
      && decide (p.loc = some "path")

/-- The scenario list built in `run_single_test`, in order: always
`happy_path`; `negative_missing_required` omitting the first required field
when one exists; `negative_invalid_id` with the invalid-id tweak when a
numeric path parameter exists.  Each entry carries the `omit_required` and
`tweak_id_to_invalid` options passed to `_execute`. -/
def scenarios (details : Details) : List (String × Option String × Bool) :=
  [("happy_path", Option.none, false)]
  ++ (match requiredFields details with
      | [] => []
      | f :: _ => [("negative_missing_required", some f, false)])
  ++ (if hasNumericPath details then [("negative_invalid_id", Option.none, true)] else [])

/-- The argument mutation at the head of `_execute`: copy the base arguments,
pop the omitted field when the option is truthy and present, then (for the
invalid-id tweak) overwrite every numeric path parameter present in the
arguments with `999999999`. -/
def executeArgs (details : Details) (omitF : Option String) (tweak : Bool) :
    List (String × Val) :=
  let args := synthesizeBaseArgs details
  let args :=
    match omitF with
    | some k => if k ≠ "" ∧ hasKey args k then args.filter (fun kv => kv.1 ≠ k) else args
    | Option.none => args
  if tweak then
    details.parameters.foldl
      (fun a p =>
        if p.loc = some "path"
            ∧ (p.schemaType = some "integer" ∨ p.schemaType = some "number")
            ∧ hasKey a p.name then
          dictInsert a p.name (.int 999999999)
        else a)
      args
  else args

/-- One scenario outcome as the pass/fail policy reads it: the `label`, the
`status_code` (absent when the request itself errored), and the `ok` flag set
to `200 <= status < 300`. -/
structure ScenarioResult where
  label : String
  statusCode : Option Nat
  ok : Bool

/-- The result entry `_execute` builds for a completed HTTP exchange. -/
def mkEntry (label : String) (status : Nat) : ScenarioResult :=
  ⟨label, some status, decide (200 ≤ status ∧ status < 300)⟩

/-- The `mapping_expect` table in `run_single_test`: `happy_path` passes on a
2xx `ok`, `negative_missing_required` on status 400 or 422,
`negative_invalid_id` on status 404. -/
def expectPass (label : String) (r : ScenarioResult) : Bool :=
  if label = "happy_path" then r.ok
  else if label = "negative_missing_required" then
    decide (r.statusCode = some 400) || decide (r.statusCode = some 422)
  else if label = "negative_invalid_id" then decide (r.statusCode = some 404)
  else true

/-- The fixed scenario order stated by the specification. -/
def fixedOrder : List String :=
  ["happy_path", "negative_missing_required", "negative_invalid_id"]

/-- Boolean sublist test: does the first list appear in the second, in
order? -/
def sublistB : List String → List String → Bool
  | [], _ => true
  | _ :: _, [] => false
  | a :: as, b :: bs => if a = b then sublistB as bs else sublistB (a :: as) bs

/-! ## Concurrent test runner (test_all_endpoints)

`test_all_endpoints` creates `sem = asyncio.Semaphore(concurrency)` and one
`worker` task per operation; each worker enters `async with sem:` and then
runs its operation's scenarios strictly in list order, one await at a time.
The cooperative scheduler is modelled as a transition system: a state holds
the scenario counts of the not-yet-started operations, the in-flight workers
(pairs of total and completed scenario count — a worker holds the semaphore
for its whole scenario sequence), and the number of finished workers.  The
`start` transition is guarded by `running.length < n`, exactly the semaphore
acquire; `step` completes one scenario of one in-flight worker; `finish`
releases the slot once every scenario of the worker ran. -/

structure RunnerState where
  pending : List Nat
  running : List (Nat × Nat)
  finished : Nat

/-- The initial state: every operation queued, no worker started. -/
def runnerInit (scens : List Nat) : RunnerState := ⟨scens, [], 0⟩

inductive RunnerStep (n : Nat) : RunnerState → RunnerState → Prop
  | start (c : Nat) (rest : List Nat) (s : RunnerState) :
      s.pending = c :: rest → s.running.length < n →
      RunnerStep n s ⟨rest, (c, 0) :: s.running, s.finished⟩
  | scenario (pre post : List (Nat × Nat)) (c i : Nat) (s : RunnerState) :
      i < c → s.running = pre ++ (c, i) :: post →
      RunnerStep n s ⟨s.pending, pre ++ (c, i + 1) :: post, s.finished⟩
  | finish (pre post : List (Nat × Nat)) (c : Nat) (s : RunnerState) :
      s.running = pre ++ (c, c) :: post →
      RunnerStep n s ⟨s.pending, pre ++ post, s.finished + 1⟩

/-- Reachability from the initial state under the runner transitions. -/
def RunnerReach (n : Nat) (scens : List Nat) : RunnerState → Prop :=
  Relation.ReflTransGen (RunnerStep n) (runnerInit scens)

/-- Every in-flight worker has completed at most its own scenario count. -/
def runningOk (s : RunnerState) : Bool :=
  s.running.all fun ci => decide (ci.2 ≤ ci.1)

/-! ## Concrete fixtures used by witnesses and counterexamples -/

/-- A required numeric path parameter `book_id`, as declared by the sample
book API (`GET /books/{book_id}`). -/
def exBookParam : Param :=
  ⟨"book_id", some "path", true, .some (.mk (some "integer") Option.none [] [] .none .nil)⟩

/-- The operation `GET /books/{book_id}` of the sample book API. -/
def exDetailsBook : Details :=
  ⟨some "getBook", Option.none, Option.none, [exBookParam], Option.none⟩

/-- An operation with a single required string query parameter `q`. -/
def exDetailsQ : Details :=
  ⟨some "searchBooks", Option.none, Option.none,
    [⟨"q", some "query", true, .some (.mk (some "string") Option.none [] [] .none .nil)⟩],
    Option.none⟩

/-- An operation declaring one header parameter `x-api-key`. -/
def exDetailsHeader : Details :=
  ⟨some "secureOp", Option.none, Option.none,
    [⟨"x-api-key", some "header", false, .none⟩], Option.none⟩

/-- An operation with no parameters and no body. -/
def exDetailsEmpty : Details :=
  ⟨some "listBooks", Option.none, Option.none, [], Option.none⟩

/-- Empty operation details with no declared operationId. -/
def exDetailsAnon : Details :=
  ⟨Option.none, Option.none, Option.none, [], Option.none⟩

/-- Two distinct (method, path) pairs whose derived operation ids collide:
neither declares an operationId, and `get_/a_b` and `get_/a/b` both become
`get__a_b` after the slash replacement. -/
def cexPaths : List (String × List (String × Details)) :=
  [("/a_b", [("get", exDetailsAnon)]), ("/a/b", [("get", exDetailsAnon)])]

/-- A path item carrying a non-verb `parameters` key next to a verb key. -/
def exPaths : List (String × List (String × Details)) :=
  [("/books", [("get", exDetailsEmpty), ("parameters", exDetailsAnon)])]

/-- Schema `{"type": "integer"}`. -/
def intSchema : Schema := .mk (some "integer") Option.none [] [] .none .nil

/-- Schema `{"type": "boolean"}`. -/
def boolSchema : Schema := .mk (some "boolean") Option.none [] [] .none .nil

/-- Schema `{"type": "number"}`. -/
def numSchema : Schema := .mk (some "number") Option.none [] [] .none .nil

/-- Schema `{"type": "string"}`. -/
def strSchema : Schema := .mk (some "string") Option.none [] [] .none .nil

/-- Schema `{"type": "string", "enum": ["A", "B"]}`. -/
def enumSchema : Schema :=
  .mk (some "string") Option.none [Val.str "A", Val.str "B"] [] .none .nil

/-! ## Shared lemmas -/

theorem hasKey_eq_isSome_lookupS {α : Type} (d : List (String × α)) (k : String) :
    hasKey d k = (lookupS d k).isSome := by
  induction d with
  | nil => simp [hasKey, lookupS]
  | cons hd tl ih =>
    by_cases h : hd.1 = k
    · simp [hasKey, lookupS, h]
    · simp [hasKey, lookupS, h, ih]

theorem lookupS_mapUpdate {α : Type} (d : List (String × α)) (k n : String) (v : α) :
    lookupS (d.map fun kv => if kv.1 = k then (k, v) else kv) n =
      if n = k then (if hasKey d k then some v else none) else lookupS d n := by
  induction d with
  | nil => by_cases h : n = k <;> simp [lookupS, hasKey, h]
  | cons hd tl ih =>
    by_cases h : hd.1 = k
    · by_cases hn : n = k
      · subst hn
        simp [lookupS, hasKey, h]
      · have hkn : ¬ k = n := fun hh => hn hh.symm
        have ih2 : lookupS (tl.map fun kv => if kv.1 = k then (k, v) else kv) n
            = lookupS tl n := by
          rw [ih, if_neg hn]
        simp [lookupS, List.map_cons, h, hkn, hn, ih2]
    · by_cases hn : hd.1 = n
      · have hnk : ¬ n = k := fun hh => h (hn.trans hh)
        simp [lookupS, h, hn, hnk]
      · simp only [List.map_cons, if_neg h, lookupS, if_neg hn, hasKey]
        rw [ih]
        by_cases hnk : n = k <;> simp [hnk, h, lookupS]

theorem lookupS_append_single {α : Type} (d : List (String × α)) (k n : String) (v : α)
    (hk : hasKey d k = false) :
    lookupS (d ++ [(k, v)]) n = if n = k then some v else lookupS d n := by
  induction d with
  | nil =>
    by_cases h : n = k
    · simp [lookupS, h]
    · have hkn : ¬ k = n := fun hh => h hh.symm
      simp [lookupS, h, hkn]
  | cons hd tl ih =>
    have h1 : hd.1 ≠ k := by
      intro hh
      simp [hasKey, hh] at hk
    have hk2 : hasKey tl k = false := by
      simpa [hasKey, h1] using hk
    by_cases hn : hd.1 = n
    · have hnk : ¬ n = k := fun hh => h1 (hn.trans hh)
      simp [lookupS, hn, hnk]
    · simp only [List.cons_append, lookupS, if_neg hn]
      simpa using ih hk2

/-- Characterization of `dictInsert` under lookup. -/
theorem lookupS_dictInsert {α : Type} (d : List (String × α)) (k n : String) (v : α) :
    lookupS (dictInsert d k v) n = if n = k then some v else lookupS d n := by
  rw [dictInsert]
  by_cases hk : hasKey d k
  · rw [if_pos hk, lookupS_mapUpdate]
    by_cases hn : n = k <;> simp [hn, hk]
  · rw [if_neg hk, lookupS_append_single d k n v (by simpa using hk)]

/-- Characterization of `dictInsert` under key membership. -/
theorem hasKey_dictInsert {α : Type} (d : List (String × α)) (k n : String) (v : α) :
    hasKey (dictInsert d k v) n = if n = k then true else hasKey d n := by
  rw [hasKey_eq_isSome_lookupS, lookupS_dictInsert]
  by_cases hn : n = k
  · simp [hn]
  · simp [hn, hasKey_eq_isSome_lookupS]

theorem headerResolveValue_eq_spec (args : List (String × Val))
    (uXG dXG uXH dXH : Option String) (pname : String) :
    headerResolveValue args uXG dXG uXH dXH pname =
      specHeaderResolution args uXG dXG uXH dXH pname := by
  rw [headerResolveValue, specHeaderResolution]
  by_cases h : hasKey args pname
  · simp [h]
  · simp only [h, Bool.false_eq_true, if_false]
    cases lastKeyLower args (pyLower pname) with
    | none =>
      cases lastKeyLower args (strReplace (pyLower pname) "-" "_") with
      | none => rfl
      | some k => rfl
    | some k => rfl

theorem hasKey_iff_mem_keys {α : Type} (d : List (String × α)) (k : String) :
    hasKey d k = true ↔ k ∈ d.map Prod.fst := by
  induction d with
  | nil => simp [hasKey]
  | cons hd tl ih =>
    by_cases h : hd.1 = k
    · simp [hasKey, h]
    · have hne : ¬ k = hd.1 := fun hh => h hh.symm
      simp [hasKey, h, ih, hne]

/-- Pointwise congruence for `List.map` over the members of a list. -/
theorem mapCongrMem {α β : Type} (l : List α) (f g : α → β)
    (h : ∀ a ∈ l, f a = g a) : l.map f = l.map g := by
  induction l with
  | nil => rfl
  | cons x xs ih =>
    simp only [List.map_cons]
    rw [h x (by simp), ih fun a ha => h a (List.mem_cons_of_mem x ha)]

/-- The substitution loop errors (with the `ValueError` message) exactly on
the first declared path parameter missing from the arguments. -/
theorem exceptErr_substPathParams (args : List (String × Val)) :
    ∀ (ps : List Param) (path : String),
    exceptErr (substPathParams ps args path) =
      ((ps.find? fun p => decide (p.loc = some "path") && !(hasKey args p.name)).map
        fun p => "Missing required path parameter: " ++ p.name) := by
  intro ps
  induction ps with
  | nil => intro path; rfl
  | cons p ps ih =>
    intro path
    by_cases hloc : p.loc = some "path"
    · by_cases hk : hasKey args p.name = true
      · rw [substPathParams, if_pos hloc, if_pos hk,
          List.find?_cons_of_neg _ (by simp [hloc, hk])]
        exact ih _
      · have hk2 : hasKey args p.name = false := by simpa using hk
        rw [substPathParams, if_pos hloc, if_neg (by simpa using hk),
          List.find?_cons_of_pos _ (by simp [hloc, hk2])]
        rfl
    · rw [substPathParams, if_neg hloc, List.find?_cons_of_neg _ (by simp [hloc])]
      exact ih _

/-- The header dictionary the parameter loop builds, characterized by lookup:
a name declared somewhere as a header parameter maps to its resolved value if
one resolves, and to the accumulator's entry otherwise. -/
theorem lookupS_queryAndHeaders_fold (args : List (String × Val))
    (u d u2 d2 : Option String) (n : String) :
    ∀ (ps : List Param) (acc : List (String × Val) × List (String × String)),
    lookupS ((ps.foldl (headerResolveStep args u d u2 d2) acc).2) n =
      if (ps.any fun p => decide (p.loc = some "header") && decide (p.name = n))
          && (headerResolveValue args u d u2 d2 n).isSome then
        headerResolveValue args u d u2 d2 n
      else lookupS acc.2 n := by
  intro ps
  induction ps with
  | nil => intro acc; simp
  | cons p ps ih =>
    intro acc
    rw [List.foldl_cons, ih]
    by_cases hq : p.loc = some "query" ∧ hasKey args p.name = true
    · have hloc : ¬ p.loc = some "header" := by
        rcases hq with ⟨h1, _⟩
        rw [h1]
        simp
      simp [headerResolveStep, hq, List.any_cons, hloc]
    · by_cases hh : p.loc = some "header"
      · by_cases hpn : p.name = n
        · subst hpn
          cases hr : headerResolveValue args u d u2 d2 p.name with
          | none => simp [headerResolveStep, hq, hh, hr, List.any_cons]
          | some v =>
            simp [headerResolveStep, hq, hh, hr, List.any_cons, lookupS_dictInsert]
        · cases hr : headerResolveValue args u d u2 d2 p.name with
          | none => simp [headerResolveStep, hq, hh, hr, List.any_cons, hpn]
          | some v =>
            have hnp : ¬ n = p.name := fun hh2 => hpn hh2.symm
            simp [headerResolveStep, hq, hh, hr, List.any_cons, hpn,
              lookupS_dictInsert, hnp]
      · simp [headerResolveStep, hq, hh, List.any_cons]

/-- The inner loop over one path item equals a fold of inserts over its
filtered, mapped verb entries. -/
theorem innerFold_eq_filterMap (p : String) :
    ∀ (ms : List (String × Details)) (acc : List (String × String × String × Details)),
    ms.foldl
        (fun m md =>
          if pyLower md.1 ∈ httpVerbs then
            let e := catalogEntry md.1 p md.2
            dictInsert m e.1 e.2
          else m)
        acc
      = ((ms.filter fun md => pyLower md.1 ∈ httpVerbs).map fun md =>
          catalogEntry md.1 p md.2).foldl (fun m e => dictInsert m e.1 e.2) acc := by
  intro ms
  induction ms with
  | nil => intro acc; rfl
  | cons md ms ih =>
    intro acc
    by_cases hv : pyLower md.1 ∈ httpVerbs
    · have hd2 : decide (pyLower md.1 ∈ httpVerbs) = true := decide_eq_true hv
      simp only [List.foldl_cons, List.filter_cons, hd2, eq_self_iff_true, if_true,
        if_pos hv, List.map_cons]
      exact ih _
    · have hd2 : decide (pyLower md.1 ∈ httpVerbs) = false := by simpa using hv
      simp only [List.foldl_cons, List.filter_cons, hd2, Bool.false_eq_true, if_false,
        if_neg hv]
      exact ih _

/-- The nested catalog loop is the fold of inserts over the flattened verb
entries. -/
theorem buildOperationMap_eq_fold (paths : List (String × List (String × Details))) :
    ∀ (acc : List (String × String × String × Details)),
    paths.foldl
        (fun m pr =>
          pr.2.foldl
            (fun m md =>
              if pyLower md.1 ∈ httpVerbs then
                let e := catalogEntry md.1 pr.1 md.2
                dictInsert m e.1 e.2
              else m)
            m)
        acc
      = (verbEntries paths).foldl (fun m e => dictInsert m e.1 e.2) acc := by
  induction paths with
  | nil => intro acc; rfl
  | cons pr paths ih =>
    intro acc
    rw [List.foldl_cons, verbEntries, List.flatMap_cons, List.foldl_append,
      innerFold_eq_filterMap pr.1 pr.2 acc, ih]
    rfl

/-- Folding `dictInsert` over entries whose keys are fresh (no duplicates
among themselves or with the accumulator) is plain concatenation. -/
theorem foldl_dictInsert_nodup {α : Type} :
    ∀ (es : List (String × α)) (acc : List (String × α)),
    ((acc ++ es).map Prod.fst).Nodup →
    es.foldl (fun m e => dictInsert m e.1 e.2) acc = acc ++ es := by
  intro es
  induction es with
  | nil => intro acc _; simp
  | cons e es ih =>
    intro acc hnd
    have hmem : e.1 ∈ (e :: es).map Prod.fst := by simp
    have hnotin : e.1 ∉ acc.map Prod.fst := by
      rw [List.map_append, List.nodup_append] at hnd
      exact fun hin => hnd.2.2 hin hmem
    have hkey : hasKey acc e.1 = false := by
      rcases h : hasKey acc e.1 with _ | _
      · rfl
      · exact absurd ((hasKey_iff_mem_keys acc e.1).mp h) hnotin
    rw [List.foldl_cons]
    show (es.foldl (fun m e => dictInsert m e.1 e.2) (dictInsert acc e.1 e.2)) = _
    rw [dictInsert, hkey]
    simp only [Bool.false_eq_true, if_false]
    have hnd2 : (((acc ++ [e]) ++ es).map Prod.fst).Nodup := by
      simpa using hnd
    rw [ih (acc ++ [e]) hnd2]
    simp

/-- Lengths: one verb entry per verb-keyed (method, path) pair. -/
theorem verbEntries_length (paths : List (String × List (String × Details))) :
    (verbEntries paths).length = countVerbPairs paths := by
  induction paths with
  | nil => rfl
  | cons pr paths ih =>
    rw [verbEntries, countVerbPairs, List.flatMap_cons, List.flatMap_cons,
      List.length_append, List.length_append, List.length_map]
    rw [verbEntries, countVerbPairs] at ih
    rw [ih]

/-- The invalid-id tweak loop: folding the per-parameter overwrite over the
parameter list rewrites exactly the entries whose key names a numeric path
parameter, to the constant `999999999`. -/
theorem tweakFold_eq_map :
    ∀ (ps : List Param) (a : List (String × Val)),
    ps.foldl
        (fun a p =>
          if p.loc = some "path"
              ∧ (p.schemaType = some "integer" ∨ p.schemaType = some "number")
              ∧ hasKey a p.name then
            dictInsert a p.name (.int 999999999)
          else a)
        a
      = a.map fun kv =>
          if ps.any (fun p => decide (p.loc = some "path")
              && (decide (p.schemaType = some "integer")
                  || decide (p.schemaType = some "number"))
              && decide (p.name = kv.1)) then (kv.1, Val.int 999999999) else kv := by
  intro ps
  induction ps with
  | nil =>
    intro a
    simp
  | cons p ps ih =>
    intro a
    rw [List.foldl_cons]
    by_cases hA : p.loc = some "path"
    · by_cases hB : p.schemaType = some "integer" ∨ p.schemaType = some "number"
      · have hBb : (decide (p.schemaType = some "integer")
            || decide (p.schemaType = some "number")) = true := by
          rcases hB with hB | hB <;> simp [hB]
        by_cases hk : hasKey a p.name = true
        · rw [if_pos ⟨hA, hB, hk⟩, ih, dictInsert, hk, if_pos rfl]
          rw [List.map_map]
          apply mapCongrMem
          intro kv _
          by_cases hn : kv.1 = p.name
          · simp [Function.comp, hn, List.any_cons, hA, hBb]
          · have hpn : ¬ p.name = kv.1 := fun hh => hn hh.symm
            simp [Function.comp, hn, List.any_cons, hpn]
        · rw [if_neg (by
            rintro ⟨_, _, hkk⟩
            exact hk hkk), ih]
          apply mapCongrMem
          intro kv hkv
          have hnk : ¬ p.name = kv.1 := by
            intro hh
            apply hk
            rw [hasKey_iff_mem_keys, hh]
            exact List.mem_map_of_mem Prod.fst hkv
          simp [List.any_cons, hnk]
      · rw [if_neg (by rintro ⟨_, hBB, _⟩; exact hB hBB), ih]
        apply mapCongrMem
        intro kv _
        have hBb : (decide (p.schemaType = some "integer")
            || decide (p.schemaType = some "number")) = false := by
          push_neg at hB
          simp [hB.1, hB.2]
        simp [List.any_cons, hBb]
    · rw [if_neg (by rintro ⟨hAA, _, _⟩; exact hA hAA), ih]
      apply mapCongrMem
      intro kv _
      simp [List.any_cons, hA]

/-- After injecting one header, that header resolves exactly when it was
already present or a truthy user override or default existed. -/
theorem hasKeys_injectHeader (hd : List (String × String)) (lo hi : String)
    (u d : Option String) :
    (hasKey (injectHeader hd lo hi u d) lo || hasKey (injectHeader hd lo hi u d) hi) =
      (hasKey hd lo || hasKey hd hi || decide (u.getD "" ≠ "") || decide (d.getD "" ≠ "")) := by
  rw [injectHeader]
  by_cases hp : (hasKey hd lo || hasKey hd hi) = true
  · simp [hp]
  · have hlo : hasKey hd lo = false := by
      rcases Bool.or_eq_false_iff.mp (by simpa using hp) with ⟨h1, _⟩
      exact h1
    have hhi : hasKey hd hi = false := by
      rcases Bool.or_eq_false_iff.mp (by simpa using hp) with ⟨_, h2⟩
      exact h2
    by_cases hu : u.getD "" ≠ ""
    · simp only [hp, not_false_eq_true, if_true, if_pos hu]
      simp [hlo, hhi, hu, hasKey_dictInsert]
    · by_cases hdf : d.getD "" ≠ ""
      · simp only [hp, not_false_eq_true, if_true, if_neg hu, if_pos hdf]
        simp [hlo, hhi, hu, hdf, hasKey_dictInsert]
      · simp only [hp, not_false_eq_true, if_true, if_neg hu, if_neg hdf]
        simp [hlo, hhi, hu, hdf]

/-- Injection of one header never touches other keys. -/
theorem hasKey_injectHeader_other (hd : List (String × String)) (lo hi : String)
    (u d : Option String) (n : String) (hn : n ≠ lo) :
    hasKey (injectHeader hd lo hi u d) n = hasKey hd n := by
  rw [injectHeader]
  by_cases hp : (hasKey hd lo || hasKey hd hi) = true
  · simp [hp]
  · by_cases hu : u.getD "" ≠ ""
    · simp [hp, hu, hasKey_dictInsert, hn]
    · by_cases hdf : d.getD "" ≠ ""
      · simp [hp, hu, hdf, hasKey_dictInsert, hn]
      · simp [hp, hu, hdf]

/-! ## Claim theorems -/

/-- C1, counterexample: for POST the Invocation Gateway does not map a 404
response to the structured not-found result; the POST branch calls
`raise_for_status` before any 404 check, so the 404 is raised and caught as a
generic transport error. -/
theorem c1_post_404_counterexample :
    makeApiOutcome "POST" 404 true "nf" = ApiOutcome.transportError ∧
    makeApiOutcome "POST" 404 true "nf" ≠ ApiOutcome.notFound "nf" := by
  constructor
  · rfl
  · decide

/-- C1, amended: for every status at least 400, the GET, PUT and DELETE
branches of `make_api_request` map a 404 response to the structured not-found
result and every other such status to the caught-transport-error result; the
POST branch maps every status at least 400 — 404 included — to the
caught-transport-error result.  No branch lets the exception escape: every
outcome is a structured result. -/
theorem c1_gateway_status_mapping (status : Nat) (body : String) (jp : Bool)
    (h : 400 ≤ status) :
    makeApiOutcome "GET" status jp body
        = (if status = 404 then ApiOutcome.notFound body else ApiOutcome.transportError)
    ∧ makeApiOutcome "PUT" status jp body
        = (if status = 404 then ApiOutcome.notFound body else ApiOutcome.transportError)
    ∧ makeApiOutcome "DELETE" status jp body
        = (if status = 404 then ApiOutcome.notFound body else ApiOutcome.transportError)
    ∧ makeApiOutcome "POST" status jp body = ApiOutcome.transportError := by
  have e1 : makeApiOutcome "GET" status jp body =
      (if status = 404 then ApiOutcome.notFound body
       else if 400 ≤ status then ApiOutcome.transportError
       else if status = 204 then ApiOutcome.noContent
       else if jp then ApiOutcome.jsonResult
       else ApiOutcome.textResult body status) := rfl
  have e2 : makeApiOutcome "PUT" status jp body =
      (if status = 404 then ApiOutcome.notFound body
       else if 400 ≤ status then ApiOutcome.transportError
       else if status = 204 then ApiOutcome.noContent
       else if jp then ApiOutcome.jsonResult
       else ApiOutcome.textResult body status) := rfl
  have e3 : makeApiOutcome "DELETE" status jp body =
      (if status = 404 then ApiOutcome.notFound body
       else if 400 ≤ status then ApiOutcome.transportError
       else if status = 204 then ApiOutcome.noContent
       else if jp then ApiOutcome.jsonResult
       else ApiOutcome.textResult body status) := rfl
  have e4 : makeApiOutcome "POST" status jp body =
      (if 400 ≤ status then ApiOutcome.transportError
       else if status = 204 then ApiOutcome.noContent
       else if jp then ApiOutcome.jsonResult
       else ApiOutcome.textResult body status) := rfl
  rw [e1, e2, e3, e4]
  by_cases h404 : status = 404
  · simp [h404]
  · simp [h404, h]

/-- C1, witness: concrete instances of the amended mapping at statuses 500
and 404. -/
theorem c1_gateway_status_mapping_witness :
    makeApiOutcome "GET" 500 true "b" = ApiOutcome.transportError ∧
    makeApiOutcome "GET" 404 true "b" = ApiOutcome.notFound "b" ∧
    makeApiOutcome "POST" 500 true "b" = ApiOutcome.transportError := by
  refine ⟨?_, ?_, ?_⟩
  · have h := (c1_gateway_status_mapping 500 "b" true (by decide)).1
    simpa using h
  · have h := (c1_gateway_status_mapping 404 "b" true (by decide)).1
    simpa using h
  · exact (c1_gateway_status_mapping 500 "b" true (by decide)).2.2.2

/-- C8: the claim says non-standard methods pass through the Invocation
Gateway as a generic HTTP request.  In `make_api_request` a PATCH (or HEAD,
or OPTIONS) request matches no branch: the function falls through and returns
Python `None`, not a result of the same shape — while the test engine's
executor in test_empi_endpoints.py does dispatch such methods through the
generic `session.request` branch, and `ensure_openapi_loaded` registers
patch/head/options operations as invokable tools. -/
theorem c8_patch_returns_none :
    makeApiOutcome "PATCH" 200 true "b" = ApiOutcome.pyNone ∧
    makeApiOutcome "PATCH" 404 false "b" = ApiOutcome.pyNone ∧
    makeApiOutcome "OPTIONS" 200 true "b" = ApiOutcome.pyNone ∧
    engineDispatch "PATCH" = EngineDispatch.generic "PATCH" ∧
    ("patch" ∈ httpVerbs) = True := by
  refine ⟨rfl, rfl, rfl, rfl, by simp [httpVerbs]⟩

/-- C6: path-parameter substitution.  First the two concrete examples of the
specification: `/books/{book_id}` with `book_id: 5` yields `/books/5`, and
with `book_id: "a b"` the substituted segment is percent-encoded as `a%20b`.
Then, for every operation and argument mapping, request building fails — with
the `Missing required path parameter` message naming the first offending
parameter — exactly when some declared path parameter has no corresponding
argument. -/
theorem c6_path_substitution :
    buildRequestFromOperation "GET" "/books/\x7bbook_id\x7d" exDetailsBook
        [("book_id", .int 5)] Option.none Option.none Option.none Option.none
      = .ok ("GET", "/books/5", Option.none, [])
    ∧ buildRequestFromOperation "GET" "/books/\x7bbook_id\x7d" exDetailsBook
        [("book_id", .str "a b")] Option.none Option.none Option.none Option.none
      = .ok ("GET", "/books/a%20b", Option.none, [])
    ∧ ∀ (method path : String) (details : Details) (args : List (String × Val))
        (uXG dXG uXH dXH : Option String),
        exceptErr (buildRequestFromOperation method path details args uXG dXG uXH dXH)
          = ((details.parameters.find? fun p =>
                decide (p.loc = some "path") && !(hasKey args p.name)).map
              fun p => "Missing required path parameter: " ++ p.name) := by
  refine ⟨rfl, rfl, ?_⟩
  intro method path details args uXG dXG uXH dXH
  have h := exceptErr_substPathParams args details.parameters path
  cases hE : substPathParams details.parameters args path with
  | error e =>
    rw [hE] at h
    rw [buildRequestFromOperation, hE]
    simpa [exceptErr] using h
  | ok p2 =>
    rw [hE] at h
    rw [buildRequestFromOperation, hE]
    simpa [exceptErr] using h

/-- C7: synthetic example values.  With no enumeration, an integer synthesizes
`1` exactly when its lowercased name ends in `id` and `0` otherwise, a number
synthesizes the float `0.0`, a boolean synthesizes `True`, and a string with
no recognized format synthesizes `sample_<name>` (or `sample` when unnamed);
when an enumeration is present its first listed value wins regardless of
type. -/
theorem c7_synth_value_cases (s : Schema) (name : String) :
    (∀ (v : Val) (vs : List Val), s.enum = v :: vs → synthValue s name = v)
    ∧ (s.enum = [] → s.type = some "integer" →
        synthValue s name
          = (if pyEndsWith (pyLower name) "id" then Val.int 1 else Val.int 0))
    ∧ (s.enum = [] → s.type = some "number" → synthValue s name = Val.num0)
    ∧ (s.enum = [] → s.type = some "boolean" → synthValue s name = Val.bool true)
    ∧ (s.enum = [] → s.type = some "string" →
        s.format ≠ some "date-time" → s.format ≠ some "date" →
        synthValue s name
          = Val.str (if name = "" then "sample" else "sample_" ++ name)) := by
  obtain ⟨t, fmt, en, req, items, props⟩ := s
  refine ⟨?_, ?_, ?_, ?_, ?_⟩
  · intro v vs he
    simp only [Schema.enum] at he
    subst he
    rfl
  · intro he ht
    simp only [Schema.enum] at he
    simp only [Schema.type] at ht
    subst he
    subst ht
    have hlike : nameLikeId name = pyEndsWith (pyLower name) "id" := by
      rcases hEnds : pyEndsWith (pyLower name) "id" with _ | _
      · have h1 : ¬ pyLower name = "id" := by
          intro hh
          rw [hh] at hEnds
          exact absurd hEnds (by decide)
        have h2 : ¬ pyLower name = "book_id" := by
          intro hh
          rw [hh] at hEnds
          exact absurd hEnds (by decide)
        simp [nameLikeId, hEnds, h1, h2]
      · simp [nameLikeId, hEnds]
    simp [synthValue, hlike]
  · intro he ht
    simp only [Schema.enum] at he
    simp only [Schema.type] at ht
    subst he
    subst ht
    simp [synthValue]
  · intro he ht
    simp only [Schema.enum] at he
    simp only [Schema.type] at ht
    subst he
    subst ht
    simp [synthValue]
  · intro he ht hf1 hf2
    simp only [Schema.enum] at he
    simp only [Schema.type] at ht
    simp only [Schema.format] at hf1 hf2
    subst he
    subst ht
    by_cases hn : name = ""
    · simp [synthValue, hf1, hf2, hn]
    · simp [synthValue, hf1, hf2, hn]

/-- C7, witness: the specification's concrete instances — `book_id` integers
yield 1, `count` integers yield 0, booleans yield true, numbers yield 0.0,
plain strings yield the `sample_` placeholder, enumerations yield their first
value. -/
theorem c7_synth_value_witness :
    synthValue intSchema "book_id" = Val.int 1
    ∧ synthValue intSchema "count" = Val.int 0
    ∧ synthValue boolSchema "flag" = Val.bool true
    ∧ synthValue numSchema "score" = Val.num0
    ∧ synthValue strSchema "title" = Val.str "sample_title"
    ∧ synthValue enumSchema "kind" = Val.str "A" := by
  refine ⟨?_, ?_, ?_, ?_, ?_, ?_⟩
  · have h := (c7_synth_value_cases intSchema "book_id").2.1 rfl rfl
    simpa using h
  · have h := (c7_synth_value_cases intSchema "count").2.1 rfl rfl
    simpa using h
  · exact (c7_synth_value_cases boolSchema "flag").2.2.2.1 rfl rfl
  · exact (c7_synth_value_cases numSchema "score").2.2.1 rfl rfl
  · have h := (c7_synth_value_cases strSchema "title").2.2.2.2 rfl rfl (by decide) (by decide)
    simpa using h
  · exact (c7_synth_value_cases enumSchema "kind").1 (Val.str "A") [Val.str "B"] rfl

/-- C3, counterexample: a valid OpenAPI document whose two distinct verb-keyed
(method, path) pairs collapse to a single Operation Catalog entry.  Neither
operation declares an operationId, so the ids are derived as
`get_/a_b` and `get_/a/b`, and the slash replacement makes both `get__a_b`:
the later entry overwrites the earlier one, leaving one entry for two
pairs. -/
theorem c3_opid_collision_counterexample :
    (buildOperationMap cexPaths).length = 1 ∧ countVerbPairs cexPaths = 2
    ∧ deriveOpId "get" "/a_b" Option.none = deriveOpId "get" "/a/b" Option.none := by
  refine ⟨rfl, rfl, rfl⟩

/-- C3, amended: whenever the derived operation ids of the verb-keyed
(method, path) pairs are pairwise distinct — in particular whenever the
document declares unique operationIds — the Operation Catalog is exactly the
flattened list of verb entries: one entry per verb-keyed (method, path) pair
(their counts agree), and every catalog entry originates from a verb-keyed
pair, so non-verb keys such as a path-level `parameters` key contribute
nothing. -/
theorem c3_operation_catalog (paths : List (String × List (String × Details)))
    (h : ((verbEntries paths).map Prod.fst).Nodup) :
    buildOperationMap paths = verbEntries paths
    ∧ (verbEntries paths).length = countVerbPairs paths
    ∧ ∀ e ∈ buildOperationMap paths, ∃ p ms m dt,
        (p, ms) ∈ paths ∧ (m, dt) ∈ ms ∧ pyLower m ∈ httpVerbs
        ∧ e = catalogEntry m p dt := by
  have heq : buildOperationMap paths = verbEntries paths := by
    rw [buildOperationMap, buildOperationMap_eq_fold paths []]
    have := foldl_dictInsert_nodup (verbEntries paths) []
    simpa using this (by simpa using h)
  refine ⟨heq, verbEntries_length paths, ?_⟩
  intro e he
  rw [heq] at he
  rw [verbEntries] at he
  rcases List.mem_flatMap.mp he with ⟨pr, hpr, hmem⟩
  rcases List.mem_map.mp hmem with ⟨md, hmd, hcat⟩
  rcases List.mem_filter.mp hmd with ⟨hmd2, hverb⟩
  exact ⟨pr.1, pr.2, md.1, md.2, hpr, hmd2, by simpa using hverb, hcat.symm⟩

/-- C3, witness: on a path item carrying a `parameters` key next to a `get`
key, the catalog equals the single verb entry and the counts agree. -/
theorem c3_operation_catalog_witness :
    buildOperationMap exPaths = verbEntries exPaths
    ∧ (verbEntries exPaths).length = countVerbPairs exPaths
    ∧ (buildOperationMap exPaths).length = 1 := by
  have h := c3_operation_catalog exPaths (by decide)
  exact ⟨h.1, h.2.1, by rw [h.1]; rfl⟩

/-- C2: header resolution precedence.  For every name declared as a header
parameter of the operation, the header dictionary that
`build_request_from_operation` synthesizes maps that name exactly as the
specification's precedence chain dictates (`specHeaderResolution`: exact
argument, case-insensitive argument, hyphen/underscore-normalized argument,
then — for `x-group`/`x-hospital` only — the user override, then the
environment default); when the chain yields nothing the header is omitted
from the dictionary altogether, and the headers of every successful build are
exactly this dictionary. -/
theorem c2_header_precedence (details : Details) (args : List (String × Val))
    (uXG dXG uXH dXH : Option String) (n : String)
    (h : (details.parameters.any fun p =>
        decide (p.loc = some "header") && decide (p.name = n)) = true) :
    lookupS (queryAndHeaders details args uXG dXG uXH dXH).2 n
        = specHeaderResolution args uXG dXG uXH dXH n
    ∧ (specHeaderResolution args uXG dXG uXH dXH n = Option.none →
        hasKey (queryAndHeaders details args uXG dXG uXH dXH).2 n = false)
    ∧ ∀ (method path : String)
        (r : String × String × Option (List (String × Val)) × List (String × String)),
        buildRequestFromOperation method path details args uXG dXG uXH dXH = .ok r →
        r.2.2.2 = (queryAndHeaders details args uXG dXG uXH dXH).2 := by
  have hmain := lookupS_queryAndHeaders_fold args uXG dXG uXH dXH n
    details.parameters ([], [])
  have hlook : lookupS (queryAndHeaders details args uXG dXG uXH dXH).2 n
      = specHeaderResolution args uXG dXG uXH dXH n := by
    rw [queryAndHeaders, hmain, h, headerResolveValue_eq_spec]
    cases hr : specHeaderResolution args uXG dXG uXH dXH n with
    | none => simp [lookupS]
    | some v => simp
  refine ⟨hlook, ?_, ?_⟩
  · intro hnone
    rw [hasKey_eq_isSome_lookupS, hlook, hnone]
    rfl
  · intro method path r hb
    rw [buildRequestFromOperation] at hb
    cases hE : substPathParams details.parameters args path with
    | error e => rw [hE] at hb; exact absurd hb (by simp)
    | ok p2 =>
      rw [hE] at hb
      simp only [Except.ok.injEq] at hb
      rw [← hb]

/-- C2, witness: a header parameter `x-api-key` provided by an argument whose
key differs in case resolves through the case-insensitive match; the same
operation with no matching argument and a non-cross-cutting name omits the
header. -/
theorem c2_header_precedence_witness :
    lookupS (queryAndHeaders exDetailsHeader [("X-API-KEY", Val.str "k")]
        Option.none Option.none Option.none Option.none).2 "x-api-key" = some "k"
    ∧ hasKey (queryAndHeaders exDetailsHeader []
        Option.none Option.none Option.none Option.none).2 "x-api-key" = false := by
  constructor
  · have h := (c2_header_precedence exDetailsHeader [("X-API-KEY", Val.str "k")]
      Option.none Option.none Option.none Option.none "x-api-key" (by decide)).1
    rw [h]
    rfl
  · have h := (c2_header_precedence exDetailsHeader []
      Option.none Option.none Option.none Option.none "x-api-key" (by decide)).2.1
    exact h rfl

/-- C4: the `negative_missing_required` scenario exists exactly when the
operation's harvested required fields (required path/query parameters, then
body-schema required fields) are non-empty; its options name the first such
field; the executed argument set is the fully synthesized set minus exactly
that field and nothing else (for any non-empty field name, matching the
Python truthiness guard); and its pass predicate holds exactly on statuses
400 and 422. -/
theorem c4_missing_required_scenario (details : Details) :
    ((scenarios details).any fun sc => decide (sc.1 = "negative_missing_required"))
        = !(requiredFields details).isEmpty
    ∧ (∀ (f : String) (rest : List String), requiredFields details = f :: rest →
        (scenarios details).find? (fun sc => decide (sc.1 = "negative_missing_required"))
          = some ("negative_missing_required", some f, false))
    ∧ (∀ (f : String) (rest : List String), requiredFields details = f :: rest →
        f ≠ "" →
        executeArgs details (some f) false
          = (synthesizeBaseArgs details).filter fun kv => kv.1 ≠ f)
    ∧ ∀ status : Nat,
        expectPass "negative_missing_required" (mkEntry "negative_missing_required" status)
            = true
          ↔ (status = 400 ∨ status = 422) := by
  refine ⟨?_, ?_, ?_, ?_⟩
  · cases hreq : requiredFields details with
    | nil =>
      by_cases hnum : hasNumericPath details <;>
        simp [scenarios, hreq, hnum, List.any_cons]
    | cons f rest =>
      by_cases hnum : hasNumericPath details <;>
        simp [scenarios, hreq, hnum, List.any_cons]
  · intro f rest hreq
    by_cases hnum : hasNumericPath details <;>
      simp [scenarios, hreq, hnum, List.find?]
  · intro f rest hreq hne
    by_cases hk : hasKey (synthesizeBaseArgs details) f = true
    · have hcond : f ≠ "" ∧ hasKey (synthesizeBaseArgs details) f = true := ⟨hne, hk⟩
      simp [executeArgs, hcond]
    · have hcond : ¬ (f ≠ "" ∧ hasKey (synthesizeBaseArgs details) f = true) := by
        rintro ⟨_, hkk⟩
        exact hk hkk
      have hall : ∀ kv ∈ synthesizeBaseArgs details, kv.1 ≠ f := by
        intro kv hkv hh
        apply hk
        rw [hasKey_iff_mem_keys, ← hh]
        exact List.mem_map_of_mem Prod.fst hkv
      have hfe : List.filter (fun kv => !decide (kv.1 = f)) (synthesizeBaseArgs details)
          = synthesizeBaseArgs details :=
        List.filter_eq_self.mpr fun kv hkv => by simpa using hall kv hkv
      simp [executeArgs, hcond, hfe]
  · intro status
    have h1 : ¬ ("negative_missing_required" = "happy_path") := by decide
    simp [expectPass, mkEntry, h1]

/-- C4, witness: the operation with one required query parameter `q` gets the
scenario, which omits exactly `q` from the synthesized arguments
(`{q: "sample_q"}` becomes `{}`), and the predicate accepts 400 and 422
only. -/
theorem c4_missing_required_witness :
    ((scenarios exDetailsQ).any fun sc => decide (sc.1 = "negative_missing_required")) = true
    ∧ executeArgs exDetailsQ (some "q") false = []
    ∧ (expectPass "negative_missing_required" (mkEntry "negative_missing_required" 422) = true
        ↔ (422 = 400 ∨ (422 : Nat) = 422)) := by
  refine ⟨?_, ?_, ?_⟩
  · rw [(c4_missing_required_scenario exDetailsQ).1]
    rfl
  · have h := (c4_missing_required_scenario exDetailsQ).2.2.1 "q" [] rfl (by decide)
    simpa using h
  · exact (c4_missing_required_scenario exDetailsQ).2.2.2 422

/-- C5: the `negative_invalid_id` scenario exists exactly when the operation
has a numeric (integer or number) path parameter; its options request the
invalid-id tweak; the executed argument set is the synthesized set with every
entry naming a numeric path parameter overwritten by `999999999` and every
other entry untouched; and its pass predicate holds exactly on status 404. -/
theorem c5_invalid_id_scenario (details : Details) :
    ((scenarios details).any fun sc => decide (sc.1 = "negative_invalid_id"))
        = hasNumericPath details
    ∧ (hasNumericPath details = true →
        (scenarios details).find? (fun sc => decide (sc.1 = "negative_invalid_id"))
          = some ("negative_invalid_id", Option.none, true))
    ∧ executeArgs details Option.none true
        = ((synthesizeBaseArgs details).map fun kv =>
            if details.parameters.any (fun p => decide (p.loc = some "path")
                && (decide (p.schemaType = some "integer")
                    || decide (p.schemaType = some "number"))
                && decide (p.name = kv.1)) then (kv.1, Val.int 999999999) else kv)
    ∧ ∀ status : Nat,
        expectPass "negative_invalid_id" (mkEntry "negative_invalid_id" status) = true
          ↔ status = 404 := by
  refine ⟨?_, ?_, ?_, ?_⟩
  · cases hreq : requiredFields details with
    | nil =>
      by_cases hnum : hasNumericPath details <;>
        simp [scenarios, hreq, hnum, List.any_cons]
    | cons f rest =>
      by_cases hnum : hasNumericPath details <;>
        simp [scenarios, hreq, hnum, List.any_cons]
  · intro hnum
    cases hreq : requiredFields details with
    | nil => simp [scenarios, hreq, hnum, List.find?]
    | cons f rest => simp [scenarios, hreq, hnum, List.find?]
  · rw [executeArgs]
    simp only [if_pos]
    exact tweakFold_eq_map details.parameters (synthesizeBaseArgs details)
  · intro status
    have h1 : ¬ ("negative_invalid_id" = "happy_path") := by decide
    have h2 : ¬ ("negative_invalid_id" = "negative_missing_required") := by decide
    simp [expectPass, mkEntry, h1, h2]

/-- C5, witness: the book operation has the scenario, its arguments overwrite
the numeric `book_id` path parameter (synthesized as 1) with 999999999, and
the predicate accepts 404 exactly. -/
theorem c5_invalid_id_witness :
    ((scenarios exDetailsBook).any fun sc => decide (sc.1 = "negative_invalid_id")) = true
    ∧ executeArgs exDetailsBook Option.none true = [("book_id", Val.int 999999999)]
    ∧ (expectPass "negative_invalid_id" (mkEntry "negative_invalid_id" 404) = true
        ↔ (404 : Nat) = 404) := by
  refine ⟨?_, ?_, ?_⟩
  · rw [(c5_invalid_id_scenario exDetailsBook).1]
    rfl
  · have h := (c5_invalid_id_scenario exDetailsBook).2.2.1
    rw [h]
    rfl
  · exact (c5_invalid_id_scenario exDetailsBook).2.2.2 404

/-- C9: under a concurrency ceiling of `n`, every state the Test Runner's
transition system can reach from its initial state keeps at most `n`
operation workers in flight (the semaphore bound) with each worker having
completed at most its own scenario count (scenarios execute one at a time in
sequence); and the scenario labels of any operation are, in order, a sublist
of the fixed sequence happy_path, negative_missing_required,
negative_invalid_id. -/
theorem c9_concurrency_bound (n : Nat) (scens : List Nat) (s : RunnerState)
    (details : Details) (h : RunnerReach n scens s) :
    s.running.length ≤ n ∧ runningOk s = true
    ∧ sublistB ((scenarios details).map fun sc => sc.1) fixedOrder = true := by
  have horder : sublistB ((scenarios details).map fun sc => sc.1) fixedOrder = true := by
    cases hreq : requiredFields details with
    | nil =>
      by_cases hnum : hasNumericPath details <;>
        simp [scenarios, hreq, hnum, fixedOrder, sublistB]
    | cons f rest =>
      by_cases hnum : hasNumericPath details <;>
        simp [scenarios, hreq, hnum, fixedOrder, sublistB]
  have hinv : s.running.length ≤ n ∧ runningOk s = true := by
    induction h with
    | refl => simp [runnerInit, runningOk]
    | tail hreach hstep ih =>
      rcases hstep with ⟨c, rest, s1, hpend, hlt⟩ | ⟨pre, post, c, i, s1, hic, hrun⟩
        | ⟨pre, post, c, s1, hrun⟩
      · refine ⟨by simpa using hlt, ?_⟩
        have h2 := ih.2
        simp only [runningOk, List.all_cons] at h2 ⊢
        simp [h2]
      · have h1 := ih.1
        have h2 := ih.2
        simp only [runningOk] at h2
        rw [hrun] at h1 h2
        constructor
        · show (pre ++ (c, i + 1) :: post).length ≤ n
          simp only [List.length_append, List.length_cons] at h1 ⊢
          omega
        · show runningOk ⟨_, pre ++ (c, i + 1) :: post, _⟩ = true
          simp only [runningOk, List.all_append, List.all_cons, Bool.and_eq_true,
            decide_eq_true_eq] at h2 ⊢
          exact ⟨h2.1, by omega, h2.2.2⟩
      · have h1 := ih.1
        have h2 := ih.2
        simp only [runningOk] at h2
        rw [hrun] at h1 h2
        constructor
        · show (pre ++ post).length ≤ n
          simp only [List.length_append, List.length_cons] at h1 ⊢
          omega
        · show runningOk ⟨_, pre ++ post, _⟩ = true
          simp only [runningOk, List.all_append, List.all_cons, Bool.and_eq_true] at h2 ⊢
          exact ⟨h2.1, h2.2.2⟩
  exact ⟨hinv.1, hinv.2, horder⟩

/-- C9, witness: with ceiling 2 and three queued operations, the state after
one worker starts is reachable and satisfies the bound; the book operation's
labels follow the fixed order. -/
theorem c9_concurrency_bound_witness :
    (RunnerState.mk [3, 3] [(3, 0)] 0).running.length ≤ 2
    ∧ runningOk (RunnerState.mk [3, 3] [(3, 0)] 0) = true
    ∧ sublistB ((scenarios exDetailsBook).map fun sc => sc.1) fixedOrder = true := by
  have hr : RunnerReach 2 [3, 3, 3] (RunnerState.mk [3, 3] [(3, 0)] 0) :=
    Relation.ReflTransGen.tail Relation.ReflTransGen.refl
      (RunnerStep.start 3 [3, 3] (runnerInit [3, 3, 3]) rfl (by simp [runnerInit]))
  exact c9_concurrency_bound 2 [3, 3, 3] (RunnerState.mk [3, 3] [(3, 0)] 0)
    exDetailsBook hr

/-- A header kind resolves for `call_tool` when the built headers carry one of
its two checked spellings, or the user override is truthy, or the environment
default is truthy. -/
def headerResolvable (hd : List (String × String)) (lo hi : String)
    (user dflt : Option String) : Bool :=
  hasKey hd lo || hasKey hd hi
    || decide (user.getD "" ≠ "") || decide (dflt.getD "" ≠ "")

/-- C10: for every operation tool call whose request builds, if the x-group
header is unresolvable (the built headers carry neither spelling, and neither
the user override nor the environment default is truthy) — or likewise
x-hospital — then `call_tool` returns the missing-header instruction naming
exactly the unresolvable headers and performs no HTTP request (only
`CallAction.request` reaches `make_api_request`); this holds even when the
operation declares no header parameters.  When both resolve, the request is
performed with both headers force-injected: the final header dictionary
carries an x-group and an x-hospital key. -/
theorem c10_forced_headers (method path : String) (details : Details)
    (args : List (String × Val)) (uXG dXG uXH dXH : Option String)
    (m ep : String) (body : Option (List (String × Val)))
    (hd0 : List (String × String))
    (hb : buildRequestFromOperation method path details args uXG dXG uXH dXH
      = .ok (m, ep, body, hd0)) :
    ((headerResolvable hd0 "x-group" "X-Group" uXG dXG = false
        ∨ headerResolvable hd0 "x-hospital" "X-Hospital" uXH dXH = false) →
      callToolOperation method path details args uXG dXG uXH dXH
        = CallAction.missingHeaders
            ((if headerResolvable hd0 "x-group" "X-Group" uXG dXG then [] else [groupPrompt])
              ++ (if headerResolvable hd0 "x-hospital" "X-Hospital" uXH dXH then []
                  else [hospitalPrompt])))
    ∧ (headerResolvable hd0 "x-group" "X-Group" uXG dXG = true →
        headerResolvable hd0 "x-hospital" "X-Hospital" uXH dXH = true →
        callToolOperation method path details args uXG dXG uXH dXH
          = CallAction.request m ep body (injectedHeaders hd0 uXG dXG uXH dXH)
        ∧ (hasKey (injectedHeaders hd0 uXG dXG uXH dXH) "x-group"
            || hasKey (injectedHeaders hd0 uXG dXG uXH dXH) "X-Group") = true
        ∧ (hasKey (injectedHeaders hd0 uXG dXG uXH dXH) "x-hospital"
            || hasKey (injectedHeaders hd0 uXG dXG uXH dXH) "X-Hospital") = true) := by
  have hGkeys : (hasKey (injectedHeaders hd0 uXG dXG uXH dXH) "x-group"
      || hasKey (injectedHeaders hd0 uXG dXG uXH dXH) "X-Group")
      = headerResolvable hd0 "x-group" "X-Group" uXG dXG := by
    rw [injectedHeaders, headerResolvable,
      hasKey_injectHeader_other _ _ _ _ _ "x-group" (by decide),
      hasKey_injectHeader_other _ _ _ _ _ "X-Group" (by decide),
      hasKeys_injectHeader]
  have hHkeys : (hasKey (injectedHeaders hd0 uXG dXG uXH dXH) "x-hospital"
      || hasKey (injectedHeaders hd0 uXG dXG uXH dXH) "X-Hospital")
      = headerResolvable hd0 "x-hospital" "X-Hospital" uXH dXH := by
    rw [injectedHeaders, hasKeys_injectHeader, headerResolvable,
      hasKey_injectHeader_other _ _ _ _ _ "x-hospital" (by decide),
      hasKey_injectHeader_other _ _ _ _ _ "X-Hospital" (by decide)]
  have hcall : callToolOperation method path details args uXG dXG uXH dXH =
      (let headers2 := injectedHeaders hd0 uXG dXG uXH dXH
       let prompts :=
        (if ¬ (hasKey headers2 "x-group" || hasKey headers2 "X-Group") then [groupPrompt]
         else [])
        ++ (if ¬ (hasKey headers2 "x-hospital" || hasKey headers2 "X-Hospital") then
              [hospitalPrompt]
            else [])
       if prompts.isEmpty then CallAction.request m ep body headers2
       else CallAction.missingHeaders prompts) := by
    rw [callToolOperation, hb]
  constructor
  · intro hmiss
    rw [hcall]
    simp only [hGkeys, hHkeys]
    rcases hmiss with hm | hm <;>
      rcases hG : headerResolvable hd0 "x-group" "X-Group" uXG dXG with _ | _ <;>
        rcases hH : headerResolvable hd0 "x-hospital" "X-Hospital" uXH dXH with _ | _ <;>
          simp_all [groupPrompt, hospitalPrompt]
  · intro hG hH
    rw [hcall]
    simp only [hGkeys, hHkeys, hG, hH]
    refine ⟨by simp, trivial, trivial⟩

/-- C10, witness: an operation with no header parameters.  With the user
x-group override and the environment x-hospital default set, the call
proceeds with both headers force-injected; with nothing set, the call returns
the missing-header instruction for both and performs no request. -/
theorem c10_forced_headers_witness :
    callToolOperation "GET" "/books" exDetailsEmpty [] (some "7") Option.none
        Option.none (some "9")
      = CallAction.request "GET" "/books" Option.none
          [("x-group", "7"), ("x-hospital", "9")]
    ∧ callToolOperation "GET" "/books" exDetailsEmpty [] Option.none Option.none
        Option.none Option.none
      = CallAction.missingHeaders [groupPrompt, hospitalPrompt] := by
  constructor
  · have h := ((c10_forced_headers "GET" "/books" exDetailsEmpty [] (some "7")
      Option.none Option.none (some "9") "GET" "/books" Option.none [] rfl).2
        (by decide) (by decide)).1
    rw [h]
    rfl
  · have h := (c10_forced_headers "GET" "/books" exDetailsEmpty [] Option.none
      Option.none Option.none Option.none "GET" "/books" Option.none [] rfl).1
        (Or.inl (by decide))
    rw [h]
    rfl
